import Mathlib

/-!
Shallow embedding of the medica-backend shift-logging service.

The JavaScript/TypeScript sources are embedded as follows:
* JS `number` inputs are modelled by `JSNum` (NaN, ±Infinity, or an exact
  rational); the haversine core is modelled over the reals.
* The `Infinity` sentinel returned by `calculateDistance` for invalid
  coordinates is the `JSDist.infinite` constructor; finite results are
  `JSDist.fin (d : ℝ)`.
* Prisma rows are Lean structures; the database is a pair of lists kept in
  insertion order.  `findFirst` without `orderBy` is modelled as the first
  matching row in insertion order; `findFirst` with `orderBy clockInAt desc`
  is modelled as the first row of maximal `clockInAt`.
* `new Date()` timestamps are integer milliseconds passed as parameters.
-/

/-- A JavaScript number as supplied in a request body: NaN, +Infinity,
-Infinity, or a finite value (modelled as an exact rational). -/
inductive JSNum where
  | nan : JSNum
  | inf : JSNum
  | ninf : JSNum
  | val : ℚ → JSNum
deriving DecidableEq, Repr

/-- `Math.round(x * 1000000) / 1000000` — rounding a coordinate to 6 decimal
places, as done at the top of `calculateDistance`.  JS `Math.round` is
`⌊x + 1/2⌋`; it maps NaN to NaN and ±Infinity to ±Infinity. -/
def round6 : JSNum → JSNum
  | .nan => .nan
  | .inf => .inf
  | .ninf => .ninf
  | .val q => .val ((⌊q * 1000000 + 1/2⌋ : ℤ) / 1000000)

/-- Result of the haversine helper: either the `Infinity` sentinel or a
finite distance in meters. -/
inductive JSDist where
  | infinite : JSDist
  | fin : ℝ → JSDist

/-- JS `Math.atan2 y x` for real arguments. -/
noncomputable def atan2 (y x : ℝ) : ℝ :=
  if 0 < x then Real.arctan (y / x)
  else if x < 0 ∧ 0 ≤ y then Real.arctan (y / x) + Real.pi
  else if x < 0 ∧ y < 0 then Real.arctan (y / x) - Real.pi
  else if x = 0 ∧ 0 < y then Real.pi / 2
  else if x = 0 ∧ y < 0 then -(Real.pi / 2)
  else 0

/-- The intermediate value `a` of the haversine formula in
`calculateDistance`:
`sin(Δφ/2)·sin(Δφ/2) + cos φ1 · cos φ2 · sin(Δλ/2)·sin(Δλ/2)`. -/
noncomputable def hvA (lat1 lon1 lat2 lon2 : ℚ) : ℝ :=
  Real.sin (((lat2 - lat1 : ℚ) : ℝ) * Real.pi / 180 / 2) *
      Real.sin (((lat2 - lat1 : ℚ) : ℝ) * Real.pi / 180 / 2) +
    Real.cos ((lat1 : ℝ) * Real.pi / 180) * Real.cos ((lat2 : ℝ) * Real.pi / 180) *
      (Real.sin (((lon2 - lon1 : ℚ) : ℝ) * Real.pi / 180 / 2) *
        Real.sin (((lon2 - lon1 : ℚ) : ℝ) * Real.pi / 180 / 2))

/-- The finite branch of `calculateDistance`: `R * c` with `R = 6371e3` and
`c = 2 * atan2(√a, √(1-a))`. -/
noncomputable def haversineCore (lat1 lon1 lat2 lon2 : ℚ) : ℝ :=
  6371000 *
    (2 * atan2 (Real.sqrt (hvA lat1 lon1 lat2 lon2))
      (Real.sqrt (1 - hvA lat1 lon1 lat2 lon2)))

/-- `calculateDistance(lat1, lon1, lat2, lon2)` from the REST routes file:
rounds all four coordinates to 6 decimal places, returns `Infinity` if any
is NaN (the `isNaN` guard) or out of range after rounding (|lat| > 90,
|lon| > 180 — the range guard, which also catches ±Infinity), and otherwise
computes the haversine distance in meters. -/
noncomputable def calculateDistance (lat1 lon1 lat2 lon2 : JSNum) : JSDist :=
  match round6 lat1, round6 lon1, round6 lat2, round6 lon2 with
  | .val a1, .val o1, .val a2, .val o2 =>
      if 90 < |a1| ∨ 90 < |a2| ∨ 180 < |o1| ∨ 180 < |o2| then .infinite
      else .fin (haversineCore a1 o1 a2 o2)
  | _, _, _, _ => .infinite

/-- The spec's `isWithinRadius(distance, radius)`: holds exactly when
`distance <= radius`.  JS `Infinity <= r` is false for every finite `r`. -/
def isWithinRadius : JSDist → ℝ → Prop
  | .infinite, _ => False
  | .fin d, r => d ≤ r

/-- The comparison `distance > radius` used by the clock-in/out routes to
reject a caller.  JS `Infinity > r` is true for every finite `r`. -/
def distGtRadius : JSDist → ℚ → Prop
  | .infinite, _ => True
  | .fin d, r => (r : ℝ) < d

/-- `Math.round(distance)` applied to the computed distance before it is put
in the out-of-range error payload. -/
noncomputable def jsRoundDist : JSDist → JSDist
  | .infinite => .infinite
  | .fin d => .fin (⌊d + 1/2⌋ : ℤ)

/-- Prisma `UserRole` enum. -/
inductive UserRole where
  | MANAGER : UserRole
  | CAREWORKER : UserRole
deriving DecidableEq, Repr

/-- A row of the `User` table. -/
structure Worker where
  id : Nat
  auth0Id : String
  email : String
  name : String
  role : UserRole
deriving DecidableEq, Repr

/-- A row of the `Shift` table. -/
structure ShiftRecord where
  id : Nat
  userId : Nat
  clockInAt : Int
  clockOutAt : Option Int
  clockInNote : Option String
  clockOutNote : Option String
  clockInLat : Option JSNum
  clockInLng : Option JSNum
  clockOutLat : Option JSNum
  clockOutLng : Option JSNum
deriving DecidableEq, Repr

/-- The persistent store: rows in insertion order plus fresh-id counters. -/
structure DB where
  users : List Worker
  shifts : List ShiftRecord
  nextUserId : Nat
  nextShiftId : Nat
deriving DecidableEq, Repr

def initDB : DB := { users := [], shifts := [], nextUserId := 1, nextShiftId := 1 }

/-- The `where` clause `{ userId, clockOutAt: null }`. -/
def isActiveFor (uid : Nat) (s : ShiftRecord) : Bool :=
  s.userId == uid && s.clockOutAt == none

/-- `prisma.shift.findFirst({ where: { userId, clockOutAt: null } })` with no
`orderBy`: the first active shift of the worker in insertion order. -/
def findActiveFirst (db : DB) (uid : Nat) : Option ShiftRecord :=
  db.shifts.find? (isActiveFor uid)

/-- Keep whichever of two rows has the later `clockInAt` (the earlier row on
ties), so that folding from the head of the list realises `orderBy desc` +
`findFirst`. -/
def pickLater (best s : ShiftRecord) : ShiftRecord :=
  if best.clockInAt < s.clockInAt then s else best

/-- The same query with `orderBy: { clockInAt: 'desc' }` (the JWT resolver's
`clockOut`): the first active shift of maximal `clockInAt`. -/
def findActiveLatest (db : DB) (uid : Nat) : Option ShiftRecord :=
  match db.shifts.filter (isActiveFor uid) with
  | [] => none
  | x :: xs => some (xs.foldl pickLater x)

/-- An active shift for the worker exists (`clockOutAt` null). -/
def hasActive (db : DB) (uid : Nat) : Prop :=
  ∃ s ∈ db.shifts, s.userId = uid ∧ s.clockOutAt = none

/-- Number of active shifts of one worker. -/
def activeCount (db : DB) (uid : Nat) : Nat :=
  db.shifts.countP (isActiveFor uid)

/-- The spec invariant: every worker has at most one active shift. -/
def AtMostOneActive (db : DB) : Prop :=
  ∀ uid : Nat, activeCount db uid ≤ 1

example : round6 (.val 91) = .val 91 := by simp only [round6]; norm_num
example : round6 (.val (90 + 1/10000000)) = .val 90 := by simp only [round6]; norm_num

/-- Errors thrown by the GraphQL clock mutations. -/
inductive ClockErr where
  | alreadyActive : ClockErr
  | noActiveShift : ClockErr
deriving DecidableEq, Repr

/-- `Mutation.clockIn` of the GraphQL resolvers (the JWT and auth0 variants
have the same logic): reject with `AlreadyActiveError` if an active shift
exists for `context.user`, else create a shift with `clockInAt` = current
server time and the supplied note/coordinates. -/
def gqlClockIn (caller : Worker) (now : Int) (note : Option String)
    (lat lng : Option JSNum) (db : DB) : DB × Except ClockErr ShiftRecord :=
  match findActiveFirst db caller.id with
  | some _ => (db, .error .alreadyActive)
  | none =>
    let shift : ShiftRecord :=
      { id := db.nextShiftId, userId := caller.id, clockInAt := now, clockOutAt := none,
        clockInNote := note, clockOutNote := none, clockInLat := lat, clockInLng := lng,
        clockOutLat := none, clockOutLng := none }
    ({ db with shifts := db.shifts ++ [shift], nextShiftId := db.nextShiftId + 1 }, .ok shift)

/-- The record update performed by a successful clock-out. -/
def closeShift (t : ShiftRecord) (now : Int) (note : Option String)
    (lat lng : Option JSNum) : ShiftRecord :=
  { t with clockOutAt := some now, clockOutNote := note, clockOutLat := lat, clockOutLng := lng }

/-- Replace the row with `t.id` by its closed version, as `prisma.shift.update`
does. -/
def updateShift (db : DB) (t : ShiftRecord) : DB :=
  { db with shifts := db.shifts.map (fun s => if s.id == t.id then t else s) }

/-- `Mutation.clockOut` of the JWT GraphQL resolver: `findFirst` with
`orderBy: { clockInAt: 'desc' }`, so it operates on the active shift with the
latest `clockInAt`; errors with `NoActiveShiftError` if none exists. -/
def gqlClockOut (caller : Worker) (now : Int) (note : Option String)
    (lat lng : Option JSNum) (db : DB) : DB × Except ClockErr ShiftRecord :=
  match findActiveLatest db caller.id with
  | none => (db, .error .noActiveShift)
  | some t =>
    let upd := closeShift t now note lat lng
    (updateShift db upd, .ok upd)

/-- `Mutation.clockOut` of the auth0 GraphQL resolver: the same logic but the
`findFirst` has no `orderBy`, so it operates on the first active shift in
store order. -/
def gqlClockOutAuth0 (caller : Worker) (now : Int) (note : Option String)
    (lat lng : Option JSNum) (db : DB) : DB × Except ClockErr ShiftRecord :=
  match findActiveFirst db caller.id with
  | none => (db, .error .noActiveShift)
  | some t =>
    let upd := closeShift t now note lat lng
    (updateShift db upd, .ok upd)

/-- The mutable `GLOBAL_LOCATION` read by the REST clock routes. -/
structure FacilityLocation where
  name : String
  latitude : ℚ
  longitude : ℚ
  radius : ℚ
deriving DecidableEq, Repr

/-- Body of a REST clock-in/out request.  `none` models an absent field. -/
structure RestClockReq where
  userId : Option String
  latitude : Option JSNum
  longitude : Option JSNum
  note : Option String
  userName : Option String
  userEmail : Option String
deriving DecidableEq, Repr

/-- Responses of the REST clock routes. -/
inductive RestResult where
  | missingFields : RestResult
  | userNotFound : RestResult
  | alreadyActive : RestResult
  | noActiveShift : RestResult
  | outOfRange (distance : JSDist) (allowedRadius : ℚ) (locationName : String) : RestResult
  | ok (shift : ShiftRecord) : RestResult

/-- JS truthiness test `!userId` on an optional string field: absent and `""`
are falsy. -/
def strFalsy : Option String → Bool
  | none => true
  | some s => s == ""

/-- JS truthiness test `!latitude` on an optional numeric field: absent, NaN
and `0` are falsy; ±Infinity and every other number are truthy. -/
def numFalsy : Option JSNum → Bool
  | none => true
  | some .nan => true
  | some .inf => false
  | some .ninf => false
  | some (.val q) => q == 0

/-- JS `e.includes("@temp.com")`. -/
def hasTempDomain (e : String) : Bool :=
  (e.splitOn "@temp.com").length != 1

/-- The user-resolution step of `POST /shifts/clock-in`: look the caller up by
`auth0Id`; if absent, create a fallback user (name `userName || 'Care Worker'`,
email `userEmail || userId + "@temp.com"`, role CAREWORKER). -/
def resolveRestUser (a0id : String) (userName userEmail : Option String) (db : DB) :
    DB × Worker :=
  match db.users.find? (fun u => u.auth0Id == a0id) with
  | some u => (db, u)
  | none =>
    let nm := match userName with
      | some n => if n = "" then "Care Worker" else n
      | none => "Care Worker"
    let em := match userEmail with
      | some e => if e = "" then a0id ++ "@temp.com" else e
      | none => a0id ++ "@temp.com"
    let u : Worker := { id := db.nextUserId, auth0Id := a0id, email := em, name := nm,
                        role := .CAREWORKER }
    ({ db with users := db.users ++ [u], nextUserId := db.nextUserId + 1 }, u)

section
open scoped Classical

/-- `POST /shifts/clock-in`: requires `userId` truthy and `latitude`,
`longitude` not `undefined` (the value 0 is accepted here); resolves or
creates the user; rejects if an active shift exists; computes the distance to
`GLOBAL_LOCATION` with `calculateDistance` and rejects with the out-of-range
payload (rounded distance, allowed radius, location name) when
`distance > radius`; otherwise creates the shift storing the raw coordinates. -/
noncomputable def restClockIn (req : RestClockReq) (loc : FacilityLocation) (now : Int)
    (db : DB) : DB × RestResult :=
  match req.userId, req.latitude, req.longitude with
  | some a0id, some lat, some lng =>
    if a0id = "" then (db, .missingFields)
    else
      let resolved := resolveRestUser a0id req.userName req.userEmail db
      let db1 := resolved.1
      let user := resolved.2
      match findActiveFirst db1 user.id with
      | some _ => (db1, .alreadyActive)
      | none =>
        let distance := calculateDistance lat lng (.val loc.latitude) (.val loc.longitude)
        if distGtRadius distance loc.radius then
          (db1, .outOfRange (jsRoundDist distance) loc.radius loc.name)
        else
          let shift : ShiftRecord :=
            { id := db1.nextShiftId, userId := user.id, clockInAt := now, clockOutAt := none,
              clockInNote := req.note, clockOutNote := none, clockInLat := some lat,
              clockInLng := some lng, clockOutLat := none, clockOutLng := none }
          ({ db1 with shifts := db1.shifts ++ [shift], nextShiftId := db1.nextShiftId + 1 },
            .ok shift)
  | _, _, _ => (db, .missingFields)

/-- `POST /shifts/clock-out`: the presence check is `!userId || !latitude ||
!longitude`, so the coordinate value 0 (and NaN) is rejected as a missing
field; then user lookup (404-style error if absent), optional name/email
updates, active-shift lookup (`findFirst` without `orderBy`), the same
geofence check against `GLOBAL_LOCATION` (on coordinates rounded to 6 decimal
places), and finally the update of the active shift, storing the rounded
coordinates. -/
noncomputable def restClockOut (req : RestClockReq) (loc : FacilityLocation) (now : Int)
    (db : DB) : DB × RestResult :=
  match req.userId, req.latitude, req.longitude with
  | some a0id, some lat, some lng =>
    if a0id = "" ∨ numFalsy (some lat) ∨ numFalsy (some lng) then (db, .missingFields)
    else
      match db.users.find? (fun u => u.auth0Id == a0id) with
      | none => (db, .userNotFound)
      | some u0 =>
        let u1 := match req.userName with
          | some n => if n ≠ "" ∧ n ≠ u0.name then { u0 with name := n } else u0
          | none => u0
        let u2 := match req.userEmail with
          | some e => if e ≠ "" ∧ e ≠ u1.email ∧ ¬ hasTempDomain e then { u1 with email := e }
                      else u1
          | none => u1
        let db1 := { db with users := db.users.map (fun u => if u.id == u0.id then u2 else u) }
        match findActiveFirst db1 u0.id with
        | none => (db1, .noActiveShift)
        | some t =>
          let userLat := round6 lat
          let userLng := round6 lng
          let distance := calculateDistance userLat userLng (.val loc.latitude)
            (.val loc.longitude)
          if distGtRadius distance loc.radius then
            (db1, .outOfRange (jsRoundDist distance) loc.radius loc.name)
          else
            let upd := closeShift t now req.note (some userLat) (some userLng)
            (updateShift db1 upd, .ok upd)
  | _, _, _ => (db, .missingFields)

end

/-- One day in milliseconds. -/
def dayMs : Int := 86400000

/-- Thirty days in milliseconds (`30 * 24 * 60 * 60 * 1000`). -/
def thirtyDaysMs : Int := 30 * dayMs

/-- `user.shifts.filter(s => s.clockInAt >= thirtyDaysAgo && s.clockOutAt)`
from the JWT `dashboardStats` resolver: completed shifts begun in the last 30
days (a JS `Date` object is always truthy, so the second conjunct is
non-nullness). -/
def recentShifts (now : Int) (shifts : List ShiftRecord) : List ShiftRecord :=
  shifts.filter (fun s => decide (now - thirtyDaysMs ≤ s.clockInAt) && s.clockOutAt.isSome)

/-- The `reduce` computing `totalHours`: milliseconds between clock-out and
clock-in, divided by `1000 * 60 * 60`, summed from 0. -/
def totalHoursReduce (shifts : List ShiftRecord) : ℚ :=
  shifts.foldl
    (fun sum s =>
      match s.clockOutAt with
      | some out => sum + ((out - s.clockInAt : Int) : ℚ) / (1000 * 60 * 60)
      | none => sum)
    0

/-- `avgHoursPerDay` of the JWT `dashboardStats` resolver (before the final
2-decimal display rounding): `totalHours / min(30, recentShifts.length)` when
any qualifying shift exists, else 0. -/
def avgHoursPerDay (now : Int) (shifts : List ShiftRecord) : ℚ :=
  let recent := recentShifts now shifts
  if 0 < recent.length then totalHoursReduce recent / (min 30 recent.length : ℕ) else 0

/-- `clockInsToday` of the JWT `dashboardStats` resolver:
`user.shifts.filter(s => s.clockInAt >= today).length` — note there is no
upper bound. -/
def clockInsToday (today : Int) (shifts : List ShiftRecord) : Nat :=
  (shifts.filter (fun s => decide (today ≤ s.clockInAt))).length

/-- `todayShifts` of the auth0 `dashboardStats` resolver:
`prisma.shift.count({ where: { clockInAt: { gte: today, lt: tomorrow } } })`. -/
def todayShiftsCount (today tomorrow : Int) (shifts : List ShiftRecord) : Nat :=
  shifts.countP (fun s => decide (today ≤ s.clockInAt) && decide (s.clockInAt < tomorrow))

/-- Errors thrown by the gated GraphQL queries. -/
inductive AuthErr where
  | accessDenied : AuthErr
deriving DecidableEq, Repr

/-- The manager gate shared by `staffClockedIn`, `staffShiftLogs` and
`dashboardStats`: `!context.user || context.user.role !== MANAGER`. -/
def managerGate (caller : Option Worker) : Bool :=
  match caller with
  | none => true
  | some u => u.role != .MANAGER

/-- Stable insertion into a list sorted by `clockInAt` descending. -/
def insertByClockInDesc (s : ShiftRecord) : List ShiftRecord → List ShiftRecord
  | [] => [s]
  | x :: xs => if x.clockInAt ≤ s.clockInAt then s :: x :: xs else x :: insertByClockInDesc s xs

/-- `orderBy: { clockInAt: 'desc' }` modelled as a stable descending sort. -/
def sortByClockInDesc (l : List ShiftRecord) : List ShiftRecord :=
  l.foldr insertByClockInDesc []

/-- Join `shift.user` through the foreign key, as the Prisma `include` does
(referential integrity assumed: rows whose user is missing are dropped). -/
def joinUser (db : DB) (s : ShiftRecord) : Option Worker :=
  db.users.find? (fun u => u.id == s.userId)

/-- `Query.staffClockedIn`: manager-gated; active shifts ordered by
`clockInAt` descending, mapped to their users. -/
def staffClockedIn (caller : Option Worker) (db : DB) : Except AuthErr (List Worker) :=
  if managerGate caller then .error .accessDenied
  else .ok ((sortByClockInDesc (db.shifts.filter (fun s => s.clockOutAt == none))).filterMap
    (joinUser db))

/-- `Query.staffShiftLogs`: manager-gated; all shifts ordered by `clockInAt`
descending. -/
def staffShiftLogs (caller : Option Worker) (db : DB) : Except AuthErr (List ShiftRecord) :=
  if managerGate caller then .error .accessDenied
  else .ok (sortByClockInDesc db.shifts)

/-- The aggregate `DashboardStats` returned by the auth0 resolver. -/
structure A0Stats where
  totalStaff : Nat
  activeStaff : Nat
  todayShifts : Nat
  hoursWorked : ℚ
deriving DecidableEq, Repr

/-- `Query.dashboardStats` of the auth0 resolver: manager-gated; counts of
care workers, open shifts and today's shifts, plus hours worked today over
completed shifts begun in `[today, tomorrow)` (minutes summed, divided by 60,
rounded to one decimal). -/
def dashboardStatsA0 (caller : Option Worker) (today : Int) (db : DB) :
    Except AuthErr A0Stats :=
  if managerGate caller then .error .accessDenied
  else
    let tomorrow := today + dayMs
    let completedToday := db.shifts.filter
      (fun s => decide (today ≤ s.clockInAt) && decide (s.clockInAt < tomorrow) &&
        s.clockOutAt.isSome)
    let totalMinutes : ℚ := completedToday.foldl
      (fun total s =>
        match s.clockOutAt with
        | some out => total + ((out - s.clockInAt : Int) : ℚ) / (1000 * 60)
        | none => total)
      0
    .ok { totalStaff := db.users.countP (fun u => u.role == .CAREWORKER),
          activeStaff := db.shifts.countP (fun s => s.clockOutAt == none),
          todayShifts := todayShiftsCount today tomorrow db.shifts,
          hoursWorked := (⌊totalMinutes / 60 * 10 + 1/2⌋ : ℤ) / 10 }

/-- An entry of the list returned by `GET /staff/active`. -/
structure StaffEntry where
  userId : Nat
  auth0Id : String
  name : String
  email : String
  role : UserRole
  shiftId : Nat
  clockInAt : Int
  clockInLat : Option JSNum
  clockInLng : Option JSNum
  note : Option String
  status : String
deriving DecidableEq, Repr

/-- `GET /staff/active`: active shifts ordered by `clockInAt` descending with
user info joined in.  The route has no authentication or role check, so the
caller argument is ignored. -/
def restStaffActive (caller : Option Worker) (db : DB) : List StaffEntry :=
  (sortByClockInDesc (db.shifts.filter (fun s => s.clockOutAt == none))).filterMap
    (fun s => (joinUser db s).map (fun u =>
      { userId := u.id, auth0Id := u.auth0Id, name := u.name, email := u.email, role := u.role,
        shiftId := s.id, clockInAt := s.clockInAt, clockInLat := s.clockInLat,
        clockInLng := s.clockInLng, note := s.clockInNote, status := "ACTIVE" }))

/-- One clock operation of any of the implementations (GraphQL JWT / auth0
resolvers, REST routes). -/
inductive Op where
  | gqlIn (caller : Worker) (now : Int) (note : Option String) (lat lng : Option JSNum) : Op
  | gqlOut (caller : Worker) (now : Int) (note : Option String) (lat lng : Option JSNum) : Op
  | gqlOutA0 (caller : Worker) (now : Int) (note : Option String) (lat lng : Option JSNum) : Op
  | restIn (req : RestClockReq) (loc : FacilityLocation) (now : Int) : Op
  | restOut (req : RestClockReq) (loc : FacilityLocation) (now : Int) : Op

/-- Apply one clock operation to the store (the response is dropped). -/
noncomputable def step (db : DB) : Op → DB
  | .gqlIn caller now note lat lng => (gqlClockIn caller now note lat lng db).1
  | .gqlOut caller now note lat lng => (gqlClockOut caller now note lat lng db).1
  | .gqlOutA0 caller now note lat lng => (gqlClockOutAuth0 caller now note lat lng db).1
  | .restIn req loc now => (restClockIn req loc now db).1
  | .restOut req loc now => (restClockOut req loc now db).1

/-! ### Invariant lemmas -/

lemma countP_map_le_of_imp (l : List ShiftRecord) (f : ShiftRecord → ShiftRecord)
    (p : ShiftRecord → Bool) (h : ∀ x, p (f x) = true → p x = true) :
    (l.map f).countP p ≤ l.countP p := by
  rw [List.countP_map]
  exact List.countP_mono_left (fun a _ ha => h a ha)

/-- The invariant only depends on the shift rows. -/
lemma atMostOne_of_shifts_eq {db1 db2 : DB} (h : db1.shifts = db2.shifts)
    (hinv : AtMostOneActive db2) : AtMostOneActive db1 := by
  intro uid
  have := hinv uid
  simpa [activeCount, h] using this

/-- Appending a fresh active shift for a worker with no active shift keeps
every worker's active count at most one. -/
lemma inv_append_new (sh : List ShiftRecord) (new : ShiftRecord)
    (hfind : sh.find? (isActiveFor new.userId) = none)
    (hinv : ∀ w, sh.countP (isActiveFor w) ≤ 1) :
    ∀ w, (sh ++ [new]).countP (isActiveFor w) ≤ 1 := by
  intro w
  rw [List.countP_append]
  by_cases hw : w = new.userId
  · have h0 : sh.countP (isActiveFor new.userId) = 0 := by
      rw [List.countP_eq_zero]
      intro a ha
      exact List.find?_eq_none.mp hfind a ha
    have h1 : List.countP (isActiveFor new.userId) [new] ≤ 1 := by
      simp only [List.countP_cons, List.countP_nil]
      split <;> omega
    rw [hw]
    omega
  · have h1 : List.countP (isActiveFor w) [new] = 0 := by
      simp [List.countP_cons, isActiveFor]
      intro hcontra
      exact absurd hcontra.symm hw
    have := hinv w
    omega

/-- Closing a shift (pointwise replacing the row with a version whose
`clockOutAt` is set) cannot increase any worker's active count. -/
lemma inv_close (sh : List ShiftRecord) (upd : ShiftRecord) (hup : upd.clockOutAt ≠ none)
    (hinv : ∀ w, sh.countP (isActiveFor w) ≤ 1) :
    ∀ w, (sh.map (fun s => if s.id == upd.id then upd else s)).countP (isActiveFor w) ≤ 1 := by
  intro w
  refine le_trans (countP_map_le_of_imp sh _ _ ?_) (hinv w)
  intro x hx
  by_cases hid : x.id == upd.id
  · simp only [hid, if_true] at hx
    exfalso
    simp [isActiveFor] at hx
    exact hup hx.2
  · simpa [hid] using hx

lemma resolveRestUser_shifts (a0id : String) (un ue : Option String) (db : DB) :
    (resolveRestUser a0id un ue db).1.shifts = db.shifts := by
  unfold resolveRestUser
  cases h : db.users.find? (fun u => u.auth0Id == a0id) <;> simp [h]

/-- Every clock operation of every implementation preserves the
at-most-one-active-shift invariant. -/
lemma step_preserves (db : DB) (op : Op) (h : AtMostOneActive db) :
    AtMostOneActive (step db op) := by
  cases op with
  | gqlIn caller now note lat lng =>
    simp only [step, gqlClockIn]
    split
    · exact h
    · rename_i hf
      intro uid
      simpa [activeCount] using
        inv_append_new db.shifts _ (by simpa [findActiveFirst] using hf) (fun w => h w) uid
  | gqlOut caller now note lat lng =>
    simp only [step, gqlClockOut]
    split
    · exact h
    · intro uid
      simpa [activeCount, updateShift] using
        inv_close db.shifts _ (by simp [closeShift]) (fun w => h w) uid
  | gqlOutA0 caller now note lat lng =>
    simp only [step, gqlClockOutAuth0]
    split
    · exact h
    · intro uid
      simpa [activeCount, updateShift] using
        inv_close db.shifts _ (by simp [closeShift]) (fun w => h w) uid
  | restIn req loc now =>
    obtain ⟨ouid, olat, olng, onote, onm, oem⟩ := req
    cases ouid with
    | none => exact h
    | some a0id =>
      cases olat with
      | none => exact h
      | some lat =>
        cases olng with
        | none => exact h
        | some lng =>
          simp only [step, restClockIn]
          split
          · exact h
          · have hsh := resolveRestUser_shifts a0id onm oem db
            have hinv1 : AtMostOneActive (resolveRestUser a0id onm oem db).1 :=
              atMostOne_of_shifts_eq hsh h
            split
            · exact hinv1
            · rename_i hf
              split
              · exact hinv1
              · intro uid
                simpa [activeCount] using
                  inv_append_new (resolveRestUser a0id onm oem db).1.shifts _
                    (by simpa [findActiveFirst] using hf) (fun w => hinv1 w) uid
  | restOut req loc now =>
    obtain ⟨ouid, olat, olng, onote, onm, oem⟩ := req
    cases ouid with
    | none => exact h
    | some a0id =>
      cases olat with
      | none => exact h
      | some lat =>
        cases olng with
        | none => exact h
        | some lng =>
          simp only [step, restClockOut]
          split
          · exact h
          · split
            · exact h
            · rename_i hu0
              have hinv1 := atMostOne_of_shifts_eq rfl h
              split
              · exact hinv1
              · split
                · exact hinv1
                · intro uid
                  simpa [activeCount, updateShift] using
                    inv_close _ _ (by simp [closeShift]) (fun w => hinv1 w) uid

lemma foldl_step_preserves (ops : List Op) :
    ∀ db : DB, AtMostOneActive db → AtMostOneActive (ops.foldl step db) := by
  induction ops with
  | nil => intro db h; exact h
  | cons op rest ih => intro db h; exact ih _ (step_preserves db op h)

lemma initDB_inv : AtMostOneActive initDB := by
  intro uid
  simp [activeCount, initDB]

lemma isActiveFor_iff (uid : Nat) (s : ShiftRecord) :
    isActiveFor uid s = true ↔ s.userId = uid ∧ s.clockOutAt = none := by
  simp [isActiveFor]

lemma findActiveFirst_none_iff (db : DB) (uid : Nat) :
    findActiveFirst db uid = none ↔ ¬ hasActive db uid := by
  rw [findActiveFirst, List.find?_eq_none, hasActive]
  constructor
  · rintro hall ⟨s, hs, h1, h2⟩
    exact hall s hs ((isActiveFor_iff uid s).mpr ⟨h1, h2⟩)
  · intro hall s hs hact
    obtain ⟨h1, h2⟩ := (isActiveFor_iff uid s).mp hact
    exact hall ⟨s, hs, h1, h2⟩

lemma findActiveFirst_some_spec (db : DB) (uid : Nat) (t : ShiftRecord)
    (h : findActiveFirst db uid = some t) :
    t ∈ db.shifts ∧ t.userId = uid ∧ t.clockOutAt = none := by
  have hmem := List.mem_of_find?_eq_some h
  have hact := List.find?_some h
  exact ⟨hmem, (isActiveFor_iff uid t).mp hact⟩

lemma foldl_pickLater_mem (xs : List ShiftRecord) (x : ShiftRecord) :
    xs.foldl pickLater x = x ∨ xs.foldl pickLater x ∈ xs := by
  induction xs generalizing x with
  | nil => exact Or.inl rfl
  | cons y ys ih =>
    rw [List.foldl_cons]
    rcases ih (pickLater x y) with h | h
    · rw [h]
      unfold pickLater
      split
      · exact Or.inr (List.mem_cons_self y ys)
      · exact Or.inl rfl
    · exact Or.inr (List.mem_cons_of_mem y h)

lemma foldl_pickLater_ge (xs : List ShiftRecord) (x : ShiftRecord) :
    x.clockInAt ≤ (xs.foldl pickLater x).clockInAt ∧
    ∀ u ∈ xs, u.clockInAt ≤ (xs.foldl pickLater x).clockInAt := by
  induction xs generalizing x with
  | nil => exact ⟨le_refl _, by intro u hu; cases hu⟩
  | cons y ys ih =>
    rw [List.foldl_cons]
    obtain ⟨h1, h2⟩ := ih (pickLater x y)
    have hxy : x.clockInAt ≤ (pickLater x y).clockInAt ∧
        y.clockInAt ≤ (pickLater x y).clockInAt := by
      unfold pickLater
      split <;> omega
    refine ⟨le_trans hxy.1 h1, ?_⟩
    intro u hu
    rcases List.mem_cons.mp hu with rfl | hu'
    · exact le_trans hxy.2 h1
    · exact h2 u hu'

/-- What a successful `findFirst` ordered by `clockInAt desc` returns: an
active shift of the worker whose `clockInAt` is maximal among them. -/
lemma findActiveLatest_spec (db : DB) (uid : Nat) (t : ShiftRecord)
    (h : findActiveLatest db uid = some t) :
    t ∈ db.shifts ∧ t.userId = uid ∧ t.clockOutAt = none ∧
    ∀ u ∈ db.shifts, u.userId = uid → u.clockOutAt = none → u.clockInAt ≤ t.clockInAt := by
  rw [findActiveLatest] at h
  split at h
  · cases h
  · rename_i x xs hfil
    have ht : t = xs.foldl pickLater x := by
      injection h with h'
      exact h'.symm
    have hmemfil : t ∈ db.shifts.filter (isActiveFor uid) := by
      rw [hfil, ht]
      rcases foldl_pickLater_mem xs x with h' | h'
      · rw [h']; exact List.mem_cons_self x xs
      · exact List.mem_cons_of_mem x h'
    obtain ⟨hmem, hact⟩ := List.mem_filter.mp hmemfil
    obtain ⟨h1, h2⟩ := (isActiveFor_iff uid t).mp hact
    refine ⟨hmem, h1, h2, ?_⟩
    intro u hu hu1 hu2
    have humemfil : u ∈ db.shifts.filter (isActiveFor uid) :=
      List.mem_filter.mpr ⟨hu, (isActiveFor_iff uid u).mpr ⟨hu1, hu2⟩⟩
    rw [hfil] at humemfil
    obtain ⟨hge1, hge2⟩ := foldl_pickLater_ge xs x
    rcases List.mem_cons.mp humemfil with rfl | hu'
    · rw [ht]; exact hge1
    · rw [ht]; exact hge2 u hu'

lemma findActiveLatest_none_iff (db : DB) (uid : Nat) :
    findActiveLatest db uid = none ↔ ¬ hasActive db uid := by
  constructor
  · rintro h ⟨s, hs, h1, h2⟩
    rw [findActiveLatest] at h
    split at h
    · rename_i hfil
      have : s ∈ db.shifts.filter (isActiveFor uid) :=
        List.mem_filter.mpr ⟨hs, (isActiveFor_iff uid s).mpr ⟨h1, h2⟩⟩
      rw [hfil] at this
      cases this
    · cases h
  · intro hna
    rw [findActiveLatest]
    split
    · rfl
    · rename_i x xs hfil
      exfalso
      have : x ∈ db.shifts.filter (isActiveFor uid) := by
        rw [hfil]; exact List.mem_cons_self x xs
      obtain ⟨hmem, hact⟩ := List.mem_filter.mp this
      obtain ⟨h1, h2⟩ := (isActiveFor_iff uid x).mp hact
      exact hna ⟨x, hmem, h1, h2⟩

/-! ### Claim theorems -/

/-- C1: every sequence of clockIn/clockOut operations (in any of the GraphQL
or REST variants) preserves the invariant that a worker has at most one
ShiftRecord with `clockOutAt = null`: clockIn only creates a new active
record when none exists for the worker, and clockOut only closes an existing
one. -/
theorem C1_clock_ops_preserve_single_active :
    (∀ (db : DB) (op : Op), AtMostOneActive db → AtMostOneActive (step db op)) ∧
    (∀ ops : List Op, AtMostOneActive (ops.foldl step initDB)) :=
  ⟨fun db op h => step_preserves db op h,
   fun ops => foldl_step_preserves ops initDB initDB_inv⟩

/-- Witness for C1 at a concrete state and operation. -/
theorem C1_witness :
    AtMostOneActive
      (step initDB (Op.gqlIn ⟨1, "auth0|w1", "w1@x.com", "W1", .CAREWORKER⟩ 0 none none none)) :=
  C1_clock_ops_preserve_single_active.1 initDB _
    (by intro uid; simp [activeCount, initDB])

/-- C4: `clockIn` (GraphQL resolver) fails, necessarily with
`AlreadyActiveError`, exactly when an active shift exists for the caller;
`clockOut` fails, necessarily with `NoActiveShiftError`, exactly when none
exists; a failing call leaves the store unchanged, and a successful call
performs exactly the described transition (clockIn appends one new active
record; clockOut closes one existing active record). -/
theorem C4_clock_error_conditions (caller : Worker) (now : Int) (note : Option String)
    (lat lng : Option JSNum) (db : DB) :
    ((gqlClockIn caller now note lat lng db).2 = .error .alreadyActive ↔
      hasActive db caller.id) ∧
    ((gqlClockOut caller now note lat lng db).2 = .error .noActiveShift ↔
      ¬ hasActive db caller.id) ∧
    (∀ e, (gqlClockIn caller now note lat lng db).2 = .error e →
      e = .alreadyActive ∧ (gqlClockIn caller now note lat lng db).1 = db) ∧
    (∀ e, (gqlClockOut caller now note lat lng db).2 = .error e →
      e = .noActiveShift ∧ (gqlClockOut caller now note lat lng db).1 = db) ∧
    (∀ s, (gqlClockIn caller now note lat lng db).2 = .ok s →
      s.userId = caller.id ∧ s.clockOutAt = none ∧
      (gqlClockIn caller now note lat lng db).1.shifts = db.shifts ++ [s]) ∧
    (∀ s, (gqlClockOut caller now note lat lng db).2 = .ok s →
      ∃ t ∈ db.shifts, t.userId = caller.id ∧ t.clockOutAt = none ∧
        s = closeShift t now note lat lng ∧
        (gqlClockOut caller now note lat lng db).1 = updateShift db s) := by
  refine ⟨?_, ?_, ?_, ?_, ?_, ?_⟩
  · rw [gqlClockIn]
    cases hf : findActiveFirst db caller.id with
    | some t =>
      simp only []
      constructor
      · intro _
        obtain ⟨hmem, h1, h2⟩ := findActiveFirst_some_spec db caller.id t hf
        exact ⟨t, hmem, h1, h2⟩
      · intro _; trivial
    | none =>
      simp only []
      constructor
      · intro h; cases h
      · intro hact
        exact absurd hact ((findActiveFirst_none_iff db caller.id).mp hf)
  · rw [gqlClockOut]
    cases hl : findActiveLatest db caller.id with
    | some t =>
      simp only []
      constructor
      · intro h; cases h
      · intro hna
        obtain ⟨hmem, h1, h2, _⟩ := findActiveLatest_spec db caller.id t hl
        exact absurd ⟨t, hmem, h1, h2⟩ hna
    | none =>
      simp only []
      exact ⟨fun _ => (findActiveLatest_none_iff db caller.id).mp hl, fun _ => trivial⟩
  · rw [gqlClockIn]
    cases hf : findActiveFirst db caller.id with
    | some t => intro e he; cases he; exact ⟨rfl, rfl⟩
    | none => intro e he; cases he
  · rw [gqlClockOut]
    cases hl : findActiveLatest db caller.id with
    | some t => intro e he; cases he
    | none => intro e he; cases he; exact ⟨rfl, rfl⟩
  · rw [gqlClockIn]
    cases hf : findActiveFirst db caller.id with
    | some t => intro s hs; cases hs
    | none =>
      intro s hs
      injection hs with hs'
      subst hs'
      exact ⟨rfl, rfl, rfl⟩
  · rw [gqlClockOut]
    cases hl : findActiveLatest db caller.id with
    | some t =>
      intro s hs
      injection hs with hs'
      subst hs'
      obtain ⟨hmem, h1, h2, _⟩ := findActiveLatest_spec db caller.id t hl
      exact ⟨t, hmem, h1, h2, rfl, rfl⟩
    | none => intro s hs; cases hs

/-- Witness for C4 at a concrete worker and store. -/
theorem C4_witness :
    (¬ hasActive initDB 1) ∧
    ((gqlClockOut ⟨1, "auth0|w1", "w1@x.com", "W1", .CAREWORKER⟩ 0 none none none
      initDB).2 = .error .noActiveShift) :=
  have hna : ¬ hasActive initDB 1 := by
    rintro ⟨s, hs, _, _⟩
    simp [initDB] at hs
  ⟨hna,
   (C4_clock_error_conditions ⟨1, "auth0|w1", "w1@x.com", "W1", .CAREWORKER⟩ 0 none none none
      initDB).2.1.mpr hna⟩

/-- Fixture worker used in concrete counterexamples. -/
def wkA : Worker := { id := 1, auth0Id := "auth0|w1", email := "w1@x.com", name := "W1",
                      role := .CAREWORKER }

/-- Fixture: an active shift opened at t=100. -/
def shA : ShiftRecord :=
  { id := 1, userId := 1, clockInAt := 100, clockOutAt := none, clockInNote := none,
    clockOutNote := none, clockInLat := none, clockInLng := none, clockOutLat := none,
    clockOutLng := none }

/-- Fixture: a second active shift of the same worker opened later, at t=200
(a state violating the invariant, reachable only by outside writes). -/
def shB : ShiftRecord :=
  { id := 2, userId := 1, clockInAt := 200, clockOutAt := none, clockInNote := none,
    clockOutNote := none, clockInLat := none, clockInLng := none, clockOutLat := none,
    clockOutLng := none }

/-- Fixture store with two active shifts for worker 1. -/
def dbTwoActive : DB := { users := [wkA], shifts := [shA, shB], nextUserId := 2,
                          nextShiftId := 3 }

/-- C6 counterexample: with two active records (clockInAt 100 and 200), the
auth0 resolver's clockOut — whose `findFirst` has no `orderBy` — closes the
first record in store order (clockInAt 100), not the one with the latest
clockInAt (200), so the claim is false for that cited implementation. -/
theorem C6_counterexample :
    (gqlClockOutAuth0 wkA 300 none none none dbTwoActive).2 =
      .ok (closeShift shA 300 none none none) ∧
    (closeShift shA 300 none none none).clockInAt < shB.clockInAt ∧
    shB ∈ dbTwoActive.shifts ∧ shB.userId = wkA.id ∧ shB.clockOutAt = none := by
  refine ⟨by rfl, by decide, by decide, by decide, by decide⟩

/-- C6 (amended): the JWT resolver's clockOut (with `orderBy clockInAt desc`)
closes an active record of maximal `clockInAt`; the auth0 resolver's clockOut
closes the first active record in store order. -/
theorem C6_clockOut_target_selection (caller : Worker) (now : Int) (note : Option String)
    (lat lng : Option JSNum) (db : DB) :
    (∀ s, (gqlClockOut caller now note lat lng db).2 = .ok s →
      ∃ t ∈ db.shifts, t.userId = caller.id ∧ t.clockOutAt = none ∧
        (∀ u ∈ db.shifts, u.userId = caller.id → u.clockOutAt = none →
          u.clockInAt ≤ t.clockInAt) ∧
        s = closeShift t now note lat lng) ∧
    (∀ s, (gqlClockOutAuth0 caller now note lat lng db).2 = .ok s →
      ∃ t, findActiveFirst db caller.id = some t ∧ s = closeShift t now note lat lng) := by
  constructor
  · rw [gqlClockOut]
    cases hl : findActiveLatest db caller.id with
    | some t =>
      intro s hs
      injection hs with hs'
      subst hs'
      obtain ⟨hmem, h1, h2, h3⟩ := findActiveLatest_spec db caller.id t hl
      exact ⟨t, hmem, h1, h2, h3, rfl⟩
    | none => intro s hs; cases hs
  · rw [gqlClockOutAuth0]
    cases hf : findActiveFirst db caller.id with
    | some t =>
      intro s hs
      injection hs with hs'
      subst hs'
      exact ⟨t, rfl, rfl⟩
    | none => intro s hs; cases hs

/-- Witness for the amended C6 at the two-active-shift fixture: the JWT
clockOut closes the record opened at t=200. -/
theorem C6_witness :
    ∃ t ∈ dbTwoActive.shifts, t.userId = wkA.id ∧ t.clockOutAt = none ∧
      (∀ u ∈ dbTwoActive.shifts, u.userId = wkA.id → u.clockOutAt = none →
        u.clockInAt ≤ t.clockInAt) ∧
      closeShift shB 300 none none none = closeShift t 300 none none none :=
  (C6_clockOut_target_selection wkA 300 none none none dbTwoActive).1
    (closeShift shB 300 none none none) (by rfl)

/-- Fixture: a shift opened exactly at the start of "tomorrow"
(`clockInAt = dayMs` with start-of-today 0). -/
def shTomorrow : ShiftRecord :=
  { id := 1, userId := 1, clockInAt := 86400000, clockOutAt := none, clockInNote := none,
    clockOutNote := none, clockInLat := none, clockInLng := none, clockOutLat := none,
    clockOutLng := none }

/-- C8 counterexample: the JWT resolver's `clockInsToday` has no upper bound
(`clockInAt >= today` only), so a record whose `clockInAt` equals
start-of-tomorrow is counted, contradicting the claimed half-open window. -/
theorem C8_counterexample :
    shTomorrow.clockInAt = 0 + dayMs ∧ clockInsToday 0 [shTomorrow] = 1 := by
  constructor
  · decide
  · decide

/-- C8 (amended): `clockInsToday` counts every record with
`clockInAt ≥ start-of-today` — the records inside the half-open window
[today, tomorrow) plus all records at or after start-of-tomorrow — while the
auth0 resolver's `todayShifts` counts exactly the half-open window. -/
theorem C8_today_window (today : Int) (shifts : List ShiftRecord) :
    clockInsToday today shifts =
      (shifts.filter (fun s => decide (today ≤ s.clockInAt) &&
        decide (s.clockInAt < today + dayMs))).length +
      (shifts.filter (fun s => decide (today + dayMs ≤ s.clockInAt))).length ∧
    todayShiftsCount today (today + dayMs) shifts =
      (shifts.filter (fun s => decide (today ≤ s.clockInAt) &&
        decide (s.clockInAt < today + dayMs))).length := by
  have hday : dayMs = 86400000 := rfl
  constructor
  · induction shifts with
    | nil => simp [clockInsToday]
    | cons s rest ih =>
      by_cases h1 : today ≤ s.clockInAt
      · by_cases h2 : s.clockInAt < today + dayMs
        · have h3 : ¬ (today + dayMs ≤ s.clockInAt) := by omega
          simp only [clockInsToday, List.filter_cons] at ih ⊢
          simp [h1, h2, h3] at ih ⊢
          omega
        · have h3 : today + dayMs ≤ s.clockInAt := by omega
          simp only [clockInsToday, List.filter_cons] at ih ⊢
          simp [h1, h2, h3] at ih ⊢
          omega
      · have h2 : ¬ (today + dayMs ≤ s.clockInAt) := by omega
        simp only [clockInsToday, List.filter_cons] at ih ⊢
        simp [h1, h2] at ih ⊢
        omega
  · rw [todayShiftsCount, List.countP_eq_length_filter]

/-- Duration of one shift in hours as the resolver computes it: `(clockOutAt -
clockInAt) / (1000*60*60)` for a completed shift, contributing 0 when open
(the `reduce` skips open shifts). -/
def shiftHours (s : ShiftRecord) : ℚ :=
  match s.clockOutAt with
  | some out => ((out - s.clockInAt : Int) : ℚ) / (1000 * 60 * 60)
  | none => 0

lemma totalHoursReduce_go (l : List ShiftRecord) :
    ∀ a : ℚ,
      l.foldl
        (fun sum s =>
          match s.clockOutAt with
          | some out => sum + ((out - s.clockInAt : Int) : ℚ) / (1000 * 60 * 60)
          | none => sum)
        a = a + (l.map shiftHours).sum := by
  induction l with
  | nil => intro a; simp
  | cons s rest ih =>
    intro a
    rw [List.foldl_cons, List.map_cons, List.sum_cons]
    cases hs : s.clockOutAt with
    | some out =>
      rw [ih]
      simp only [shiftHours, hs]
      ring
    | none =>
      rw [ih]
      simp only [shiftHours, hs]
      ring

lemma totalHoursReduce_eq_sum (l : List ShiftRecord) :
    totalHoursReduce l = (l.map shiftHours).sum := by
  rw [totalHoursReduce, totalHoursReduce_go]
  ring

/-- C7: `avgHoursPerDay` equals the sum of completed-shift hours over shifts
whose `clockInAt` lies in the trailing 30 days, divided by
`min(30, number of qualifying shifts)`, and equals 0 when there are no
qualifying shifts.  The third conjunct characterises the qualifying set. -/
theorem C7_avgHoursPerDay_formula (now : Int) (shifts : List ShiftRecord) :
    (recentShifts now shifts = [] → avgHoursPerDay now shifts = 0) ∧
    (recentShifts now shifts ≠ [] →
      avgHoursPerDay now shifts =
        ((recentShifts now shifts).map shiftHours).sum /
          (min 30 (recentShifts now shifts).length : ℕ)) ∧
    (∀ s, s ∈ recentShifts now shifts ↔
      s ∈ shifts ∧ now - thirtyDaysMs ≤ s.clockInAt ∧ s.clockOutAt ≠ none) := by
  refine ⟨?_, ?_, ?_⟩
  · intro h
    rw [avgHoursPerDay]
    simp [h]
  · intro h
    rw [avgHoursPerDay]
    have hlen : 0 < (recentShifts now shifts).length := List.length_pos.mpr h
    simp only [hlen, if_pos]
    rw [totalHoursReduce_eq_sum]
  · intro s
    rw [recentShifts, List.mem_filter]
    simp [Option.isSome_iff_ne_none]

/-- Fixture: a completed one-hour shift opened at t = thirtyDaysMs. -/
def shDone : ShiftRecord :=
  { id := 1, userId := 1, clockInAt := 2592000000, clockOutAt := some 2595600000,
    clockInNote := none, clockOutNote := none, clockInLat := none, clockInLng := none,
    clockOutLat := none, clockOutLng := none }

/-- Witness for C7 at a concrete store with one qualifying shift. -/
theorem C7_witness :
    avgHoursPerDay 2592000000 [shDone] =
      ((recentShifts 2592000000 [shDone]).map shiftHours).sum /
        (min 30 (recentShifts 2592000000 [shDone]).length : ℕ) :=
  (C7_avgHoursPerDay_formula 2592000000 [shDone]).2.1 (by decide)

lemma managerGate_true_iff (caller : Option Worker) :
    managerGate caller = true ↔
      caller = none ∨ ∃ u, caller = some u ∧ u.role ≠ UserRole.MANAGER := by
  cases caller with
  | none => simp [managerGate]
  | some u =>
    cases hu : u.role <;> simp [managerGate, hu]

/-- C3 (amended): the GraphQL queries `staffClockedIn`, `staffShiftLogs` and
`dashboardStats` reject every unauthenticated or non-MANAGER caller with
AccessDeniedError — uniformly in the store contents, i.e. before any data is
read — and return a populated (`ok`) result for a MANAGER; the REST route
`GET /staff/active`, however, performs no role check at all: its response is
the same for every caller. -/
theorem C3_manager_gating (caller : Option Worker) (today : Int) (db : DB) :
    ((caller = none ∨ ∃ u, caller = some u ∧ u.role ≠ UserRole.MANAGER) →
      dashboardStatsA0 caller today db = .error .accessDenied ∧
      staffClockedIn caller db = .error .accessDenied ∧
      staffShiftLogs caller db = .error .accessDenied) ∧
    ((∃ u, caller = some u ∧ u.role = UserRole.MANAGER) →
      (∃ st, dashboardStatsA0 caller today db = .ok st) ∧
      (∃ l, staffClockedIn caller db = .ok l) ∧
      (∃ l, staffShiftLogs caller db = .ok l)) ∧
    restStaffActive caller db = restStaffActive none db := by
  refine ⟨?_, ?_, rfl⟩
  · intro h
    have hg : managerGate caller = true := (managerGate_true_iff caller).mpr h
    exact ⟨by rw [dashboardStatsA0, if_pos hg], by rw [staffClockedIn, if_pos hg],
      by rw [staffShiftLogs, if_pos hg]⟩
  · rintro ⟨u, rfl, hrole⟩
    have hg : managerGate (some u) = false := by simp [managerGate, hrole]
    refine ⟨?_, ?_, ?_⟩
    · rw [dashboardStatsA0, if_neg (by rw [hg]; exact Bool.false_ne_true)]
      exact ⟨_, rfl⟩
    · rw [staffClockedIn, if_neg (by rw [hg]; exact Bool.false_ne_true)]
      exact ⟨_, rfl⟩
    · rw [staffShiftLogs, if_neg (by rw [hg]; exact Bool.false_ne_true)]
      exact ⟨_, rfl⟩

/-- Fixture care worker (not a manager). -/
def cwWorker : Worker := { id := 2, auth0Id := "auth0|cw", email := "cw@x.com", name := "CW",
                           role := .CAREWORKER }

/-- Fixture manager. -/
def mgrWorker : Worker := { id := 3, auth0Id := "auth0|mgr", email := "m@x.com", name := "M",
                            role := .MANAGER }

/-- C3 counterexample: `GET /staff/active` returns the full populated
active-staff listing (here of length 2) to a CAREWORKER caller instead of
denying access, so the claim that all three manager operations deny
non-manager callers is false for this cited implementation. -/
theorem C3_counterexample :
    cwWorker.role ≠ UserRole.MANAGER ∧
    (restStaffActive (some cwWorker) dbTwoActive).length = 2 := by
  constructor
  · decide
  · rfl

/-- Witness for the amended C3: a MANAGER receives ok-results and a
CAREWORKER is denied on all three GraphQL queries. -/
theorem C3_witness :
    ((∃ st, dashboardStatsA0 (some mgrWorker) 0 dbTwoActive = .ok st) ∧
      (∃ l, staffClockedIn (some mgrWorker) dbTwoActive = .ok l) ∧
      (∃ l, staffShiftLogs (some mgrWorker) dbTwoActive = .ok l)) ∧
    dashboardStatsA0 (some cwWorker) 0 dbTwoActive = .error .accessDenied :=
  ⟨(C3_manager_gating (some mgrWorker) 0 dbTwoActive).2.1 ⟨mgrWorker, rfl, rfl⟩,
   ((C3_manager_gating (some cwWorker) 0 dbTwoActive).1
      (Or.inr ⟨cwWorker, rfl, by decide⟩)).1⟩

/-- C2 (amended): only the REST `POST /shifts/clock-in` enforces the
geofence — when the caller supplies coordinates whose `calculateDistance`
result exceeds the configured facility radius it answers with the
out-of-range error carrying the (rounded) computed distance, the allowed
radius and the location name, and creates no ShiftRecord.  (The route's
earlier checks — fields present and no active shift — appear as hypotheses
because they precede the geofence check.)  The GraphQL `Mutation.clockIn`,
also cited by the claim, performs no geofence check at all; see the
counterexample below. -/
theorem C2_clockin_out_of_range (req : RestClockReq) (loc : FacilityLocation) (now : Int)
    (db : DB) (a0id : String) (lat lng : JSNum)
    (hu : req.userId = some a0id) (hne : ¬ a0id = "")
    (hlat : req.latitude = some lat) (hlng : req.longitude = some lng)
    (hnoact : findActiveFirst (resolveRestUser a0id req.userName req.userEmail db).1
      (resolveRestUser a0id req.userName req.userEmail db).2.id = none)
    (hfar : distGtRadius (calculateDistance lat lng (.val loc.latitude) (.val loc.longitude))
      loc.radius) :
    restClockIn req loc now db =
      ((resolveRestUser a0id req.userName req.userEmail db).1,
        .outOfRange (jsRoundDist (calculateDistance lat lng (.val loc.latitude)
          (.val loc.longitude))) loc.radius loc.name) ∧
    (restClockIn req loc now db).1.shifts = db.shifts := by
  obtain ⟨ouid, olat, olng, onote, onm, oem⟩ := req
  simp only at hu hlat hlng hnoact
  subst hu
  subst hlat
  subst hlng
  have hmain : restClockIn ⟨some a0id, some lat, some lng, onote, onm, oem⟩ loc now db =
      ((resolveRestUser a0id onm oem db).1,
        .outOfRange (jsRoundDist (calculateDistance lat lng (.val loc.latitude)
          (.val loc.longitude))) loc.radius loc.name) := by
    simp only [restClockIn]
    rw [if_neg hne]
    rw [hnoact]
    rw [if_pos hfar]
  exact ⟨hmain, by rw [hmain]; exact resolveRestUser_shifts a0id onm oem db⟩

/-- The request used in the C2 witness: a latitude of 91 is outside the valid
range, so `calculateDistance` returns the `Infinity` sentinel, which exceeds
every radius. -/
def reqFar : RestClockReq :=
  { userId := some "u1", latitude := some (.val 91), longitude := some (.val 0),
    note := none, userName := none, userEmail := none }

/-- The facility configured in `GLOBAL_LOCATION`. -/
def locMain : FacilityLocation :=
  { name := "Main Healthcare Center", latitude := 13.067014, longitude := 77.466541,
    radius := 2000 }

lemma calcDist_91_infinite :
    calculateDistance (.val 91) (.val 0) (.val locMain.latitude) (.val locMain.longitude) =
      .infinite := by
  have h1 : round6 (.val 91) = .val 91 := by simp only [round6]; norm_num
  have h2 : round6 (.val 0) = .val 0 := by simp only [round6]; norm_num
  have h3 : round6 (.val locMain.latitude) = .val locMain.latitude := by
    simp only [round6, locMain]; norm_num
  have h4 : round6 (.val locMain.longitude) = .val locMain.longitude := by
    simp only [round6, locMain]; norm_num
  simp only [calculateDistance, h1, h2, h3, h4]
  rw [if_pos]
  norm_num

/-- Witness for C2: clocking in at latitude 91 against the default facility
fails out-of-range and leaves the shift table unchanged. -/
theorem C2_witness :
    restClockIn reqFar locMain 0 initDB =
      ((resolveRestUser "u1" none none initDB).1,
        .outOfRange (jsRoundDist (calculateDistance (.val 91) (.val 0)
          (.val locMain.latitude) (.val locMain.longitude))) locMain.radius locMain.name) ∧
    (restClockIn reqFar locMain 0 initDB).1.shifts = initDB.shifts :=
  C2_clockin_out_of_range reqFar locMain 0 initDB "u1" (.val 91) (.val 0)
    rfl (by decide) rfl rfl (by rfl)
    (by rw [calcDist_91_infinite]; trivial)

/-- The ShiftRecord the GraphQL clockIn creates in the C2 counterexample. -/
def shFar : ShiftRecord :=
  { id := 1, userId := 1, clockInAt := 0, clockOutAt := none, clockInNote := none,
    clockOutNote := none, clockInLat := some (.val 91), clockInLng := some (.val 0),
    clockOutLat := none, clockOutLng := none }

/-- C2 counterexample: the claim quantifies over every clockIn call and cites
the GraphQL `Mutation.clockIn`, which contains no geofence logic: with the
facility `GLOBAL_LOCATION` configured and supplied coordinates whose computed
distance exceeds the radius (here latitude 91, whose distance is the
sentinel, greater than every radius), the GraphQL clockIn nevertheless
succeeds and creates the ShiftRecord, so the claim as stated is false. -/
theorem C2_counterexample :
    distGtRadius (calculateDistance (.val 91) (.val 0) (.val locMain.latitude)
      (.val locMain.longitude)) locMain.radius ∧
    (gqlClockIn wkA 0 none (some (.val 91)) (some (.val 0)) initDB).2 = .ok shFar ∧
    (gqlClockIn wkA 0 none (some (.val 91)) (some (.val 0)) initDB).1.shifts =
      initDB.shifts ++ [shFar] := by
  refine ⟨?_, rfl, rfl⟩
  rw [calcDist_91_infinite]
  trivial

/-! ### Geometry lemmas -/

lemma arctan_nonneg_of (x : ℝ) (h : 0 ≤ x) : 0 ≤ Real.arctan x := by
  have := Real.arctan_strictMono.monotone h
  rwa [Real.arctan_zero] at this

lemma arctan_nonpos_of (x : ℝ) (h : x ≤ 0) : Real.arctan x ≤ 0 := by
  have := Real.arctan_strictMono.monotone h
  rwa [Real.arctan_zero] at this

/-- `Math.atan2` always lands in `[-π, π]`. -/
lemma atan2_bounds (y x : ℝ) : -Real.pi ≤ atan2 y x ∧ atan2 y x ≤ Real.pi := by
  have hpi := Real.pi_pos
  rw [atan2]
  split_ifs with h1 h2 h3 h4 h5
  · have ha := Real.arctan_lt_pi_div_two (y / x)
    have hb := Real.neg_pi_div_two_lt_arctan (y / x)
    constructor <;> linarith
  · have hd : y / x ≤ 0 := div_nonpos_iff.mpr (Or.inl ⟨h2.2, le_of_lt h2.1⟩)
    have ha := arctan_nonpos_of _ hd
    have hb := Real.neg_pi_div_two_lt_arctan (y / x)
    constructor <;> linarith
  · have hd : 0 < y / x := div_pos_iff.mpr (Or.inr ⟨h3.2, h3.1⟩)
    have ha := arctan_nonneg_of _ (le_of_lt hd)
    have hb := Real.arctan_lt_pi_div_two (y / x)
    constructor <;> linarith
  · constructor <;> linarith
  · constructor <;> linarith
  · constructor <;> linarith

/-- The haversine distance is below 50,000,000 m (indeed below `R·2π`). -/
lemma haversineCore_lt_5e7 (a b c d : ℚ) : haversineCore a b c d < 50000000 := by
  rw [haversineCore]
  have h := (atan2_bounds (Real.sqrt (hvA a b c d)) (Real.sqrt (1 - hvA a b c d))).2
  have hpi : Real.pi < 3.15 := Real.pi_lt_d2
  nlinarith

lemma hvA_symm (a b c d : ℚ) : hvA a b c d = hvA c d a b := by
  rw [hvA, hvA]
  rw [show ((a - c : ℚ) : ℝ) * Real.pi / 180 / 2 =
      -(((c - a : ℚ) : ℝ) * Real.pi / 180 / 2) by push_cast; ring]
  rw [show ((b - d : ℚ) : ℝ) * Real.pi / 180 / 2 =
      -(((d - b : ℚ) : ℝ) * Real.pi / 180 / 2) by push_cast; ring]
  rw [Real.sin_neg, Real.sin_neg]
  ring

lemma haversineCore_symm (a b c d : ℚ) : haversineCore a b c d = haversineCore c d a b := by
  rw [haversineCore, haversineCore, hvA_symm]

lemma hvA_self (a b : ℚ) : hvA a b a b = 0 := by
  rw [hvA]
  rw [show ((a - a : ℚ) : ℝ) * Real.pi / 180 / 2 = 0 by push_cast; ring]
  rw [show ((b - b : ℚ) : ℝ) * Real.pi / 180 / 2 = 0 by push_cast; ring]
  simp

lemma haversineCore_self (a b : ℚ) : haversineCore a b a b = 0 := by
  rw [haversineCore, hvA_self]
  rw [show (1 : ℝ) - 0 = 1 by ring]
  rw [Real.sqrt_zero, Real.sqrt_one, atan2]
  rw [if_pos (by norm_num : (0 : ℝ) < 1)]
  norm_num

/-- Rounding to 6 decimal places keeps a coordinate inside a symmetric
integer bound: `|q| ≤ n` implies `|round6 q| ≤ n`. -/
lemma round6_abs_le (q : ℚ) (n : ℤ) (h : |q| ≤ (n : ℚ)) :
    |((⌊q * 1000000 + 1/2⌋ : ℤ) : ℚ) / 1000000| ≤ (n : ℚ) := by
  obtain ⟨hlo, hhi⟩ := abs_le.mp h
  have hub : ⌊q * 1000000 + 1/2⌋ ≤ n * 1000000 := by
    have : q * 1000000 + 1/2 < ((n * 1000000 + 1 : ℤ) : ℚ) := by push_cast; linarith
    exact Int.lt_add_one_iff.mp (Int.floor_lt.mpr this)
  have hlb : -(n * 1000000) ≤ ⌊q * 1000000 + 1/2⌋ := by
    apply Int.le_floor.mpr
    push_cast
    linarith
  rw [abs_le]
  constructor
  · rw [le_div_iff₀ (by norm_num : (0:ℚ) < 1000000)]
    have : ((-(n * 1000000) : ℤ) : ℚ) ≤ ((⌊q * 1000000 + 1/2⌋ : ℤ) : ℚ) := by
      exact_mod_cast hlb
    push_cast at this ⊢
    linarith
  · rw [div_le_iff₀ (by norm_num : (0:ℚ) < 1000000)]
    have : ((⌊q * 1000000 + 1/2⌋ : ℤ) : ℚ) ≤ ((n * 1000000 : ℤ) : ℚ) := by
      exact_mod_cast hub
    push_cast at this ⊢
    linarith

/-- C9: `calculateDistance` is symmetric in its two coordinate pairs, and for
every valid coordinate (|lat| ≤ 90, |lon| ≤ 180) the distance from a point to
itself is 0. -/
theorem C9_distance_symm_self (lat lon : ℚ) (hlat : |lat| ≤ 90) (hlon : |lon| ≤ 180) :
    (∀ a1 o1 a2 o2 : JSNum,
      calculateDistance a1 o1 a2 o2 = calculateDistance a2 o2 a1 o1) ∧
    calculateDistance (.val lat) (.val lon) (.val lat) (.val lon) = .fin 0 := by
  constructor
  · intro a1 o1 a2 o2
    rcases h1 : round6 a1 with _ | _ | _ | q1 <;>
      rcases h2 : round6 o1 with _ | _ | _ | q2 <;>
        rcases h3 : round6 a2 with _ | _ | _ | q3 <;>
          rcases h4 : round6 o2 with _ | _ | _ | q4 <;>
            simp only [calculateDistance, h1, h2, h3, h4] <;>
              first
              | rfl
              | exact if_congr (by tauto) rfl (by rw [haversineCore_symm])
  · have hla : |((⌊lat * 1000000 + 1/2⌋ : ℤ) : ℚ) / 1000000| ≤ ((90 : ℤ) : ℚ) :=
      round6_abs_le lat 90 (by exact_mod_cast hlat)
    have hlo : |((⌊lon * 1000000 + 1/2⌋ : ℤ) : ℚ) / 1000000| ≤ ((180 : ℤ) : ℚ) :=
      round6_abs_le lon 180 (by exact_mod_cast hlon)
    simp only [calculateDistance, round6]
    rw [if_neg]
    · rw [haversineCore_self]
    · push_neg
      refine ⟨?_, ?_, ?_, ?_⟩ <;> push_cast at hla hlo ⊢ <;> linarith

/-- Witness for C9 at concrete coordinates. -/
theorem C9_witness :
    (calculateDistance (.val 1) (.val 2) (.val 3) (.val 4) =
      calculateDistance (.val 3) (.val 4) (.val 1) (.val 2)) ∧
    calculateDistance (.val 0) (.val 0) (.val 0) (.val 0) = .fin 0 := by
  have h := C9_distance_symm_self 0 0 (by norm_num) (by norm_num)
  exact ⟨h.1 (.val 1) (.val 2) (.val 3) (.val 4), h.2⟩

/-- The latitude-validity test actually performed by `calculateDistance`:
NaN and ±Infinity fail, and a finite value fails when its 6-decimal rounding
has absolute value above 90. -/
def latOutOfRange (x : JSNum) : Prop :=
  match round6 x with
  | .val q => 90 < |q|
  | _ => True

/-- Likewise for longitudes, with bound 180. -/
def lonOutOfRange (x : JSNum) : Prop :=
  match round6 x with
  | .val q => 180 < |q|
  | _ => True

/-- C5 counterexample: the claim (sentinel for every |latitude| > 90) is
false because `calculateDistance` rounds to 6 decimal places *before* the
range check: latitude 90.0000001 (absolute value > 90) rounds to 90 and
produces a finite distance, not the sentinel. -/
theorem C5_counterexample :
    (90 : ℚ) < |90 + 1/10000000| ∧
    calculateDistance (.val (90 + 1/10000000)) (.val 0) (.val 0) (.val 0) ≠ .infinite := by
  constructor
  · rw [abs_of_pos (by norm_num)]
    norm_num
  · have h1 : round6 (.val (90 + 1/10000000)) = .val 90 := by simp only [round6]; norm_num
    have h2 : round6 (.val 0) = .val 0 := by simp only [round6]; norm_num
    simp only [calculateDistance, h1, h2]
    rw [if_neg (by norm_num)]
    simp

/-- C5 (amended): whenever any coordinate is non-finite, or out of range
*after* the 6-decimal rounding (|lat| > 90, |lon| > 180), `calculateDistance`
returns the infinite sentinel; that sentinel fails `isWithinRadius` for every
radius, and on finite distances `isWithinRadius` holds exactly when
`distance ≤ radius`. -/
theorem C5_invalid_coords_sentinel :
    (∀ (d r : ℝ), isWithinRadius (.fin d) r ↔ d ≤ r) ∧
    (∀ r : ℝ, ¬ isWithinRadius .infinite r) ∧
    (∀ lat1 lon1 lat2 lon2 : JSNum,
      latOutOfRange lat1 ∨ latOutOfRange lat2 ∨ lonOutOfRange lon1 ∨ lonOutOfRange lon2 →
      calculateDistance lat1 lon1 lat2 lon2 = .infinite) := by
  refine ⟨fun d r => Iff.rfl, fun r h => h, ?_⟩
  intro a1 o1 a2 o2 hbad
  rcases h1 : round6 a1 with _ | _ | _ | q1 <;>
    rcases h2 : round6 o1 with _ | _ | _ | q2 <;>
      rcases h3 : round6 a2 with _ | _ | _ | q3 <;>
        rcases h4 : round6 o2 with _ | _ | _ | q4 <;>
          simp only [calculateDistance, h1, h2, h3, h4] <;>
            first
            | rfl
            | (simp only [latOutOfRange, lonOutOfRange, h1, h2, h3, h4] at hbad
               rw [if_pos (by tauto)])

/-- Witness for the amended C5: latitude 91 yields the sentinel, which is
within no radius. -/
theorem C5_witness :
    calculateDistance (.val 91) (.val 0) (.val 0) (.val 0) = .infinite ∧
    (∀ r : ℝ, ¬ isWithinRadius .infinite r) :=
  ⟨C5_invalid_coords_sentinel.2.2 (.val 91) (.val 0) (.val 0) (.val 0)
    (Or.inl (by simp only [latOutOfRange, round6]; norm_num)),
   C5_invalid_coords_sentinel.2.1⟩

/-- A clock request at latitude 0 (the equator), longitude 10. -/
def reqZero : RestClockReq :=
  { userId := some "u1", latitude := some (.val 0), longitude := some (.val 10),
    note := none, userName := none, userEmail := none }

/-- A facility whose radius (50,000 km) exceeds any possible haversine
distance, so the geofence cannot reject. -/
def locWide : FacilityLocation :=
  { name := "L", latitude := 1, longitude := 10, radius := 50000000 }

lemma calcDist_reqZero :
    calculateDistance (.val 0) (.val 10) (.val locWide.latitude) (.val locWide.longitude) =
      .fin (haversineCore 0 10 1 10) := by
  have h1 : round6 (.val 0) = .val 0 := by simp only [round6]; norm_num
  have h2 : round6 (.val 10) = .val 10 := by simp only [round6]; norm_num
  have h3 : round6 (.val 1) = .val 1 := by simp only [round6]; norm_num
  simp only [locWide]
  simp only [calculateDistance, h1, h2, h3]
  rw [if_neg (by norm_num)]

/-- C10: the REST clock-out presence check `!latitude` treats the coordinate
value 0 as a missing field and rejects the request — against every store and
facility configuration — while the REST clock-in presence check
(`latitude === undefined`) accepts the value 0, so the same equator-located
caller can clock in but not clock out. -/
theorem C10_zero_coordinate_asymmetry :
    (∃ s, (restClockIn reqZero locWide 0 initDB).2 = .ok s) ∧
    (∀ (loc : FacilityLocation) (now : Int) (db : DB),
      restClockOut reqZero loc now db = (db, .missingFields)) := by
  constructor
  · simp only [restClockIn, reqZero]
    rw [if_neg (by decide : ¬ ("u1" = ""))]
    rw [show findActiveFirst (resolveRestUser "u1" none none initDB).1
      (resolveRestUser "u1" none none initDB).2.id = none from rfl]
    rw [if_neg]
    · exact ⟨_, rfl⟩
    · rw [calcDist_reqZero]
      simp only [distGtRadius]
      exact not_lt.mpr (le_of_lt (lt_of_lt_of_le (haversineCore_lt_5e7 0 10 1 10)
        (by norm_num [locWide])))
  · intro loc now db
    simp only [restClockOut, reqZero]
    rw [if_pos (Or.inr (Or.inl (by decide)))]
